import Mathlib

/-!
Verification of the interval-bounded concurrent fetch-cycle scheduler
(`src/main.go`, package `main`).

The program repeatedly launches a fixed batch of HTTP fetch workers on a
fixed cadence.  Pure parts (the domain filter, date formatting, the residual
sleep arithmetic) are embedded as Lean functions; the per-worker control flow
is embedded as a function from collaborator results to a structured exit; the
coordinator and driver control flow are embedded as event-list programs with
an explicit schedule structure for cross-thread ordering facts.
-/

/-- Fixed constants from `src/main.go` lines 17-21. -/
def ApiUrl : String := "http://api.nbp.pl/api/exchangerates/rates/a/eur/last/100/"

/-- Cadence constant `FetchInterval` (multiplied by `time.Second` at use sites). -/
def FetchInterval : Nat := 5

/-- Batch-size constant `FetchesAmount`. -/
def FetchesAmount : Nat := 10

/-- Modelled from the spec: the repository package
`spyrosoft-recruitment-task/base` is imported by `src/main.go` but its source
is not provided.  Per the spec (§6), a Summary contains an ordered sequence of
rate records, each with a numeric mid-rate and an effective date.  The Go
`float64` mid-rate is modelled as an exact rational (comparison against the
literals 4.5 / 4.7 / 4.499 / 4.701 orders identically for `float64` values
parsed from those decimal strings); the effective date is modelled by the
day/month/year components that `time.Time.Day/Month/Year` return. -/
structure Rate where
  mid : ℚ
  effDay : Nat
  effMonth : Nat
  effYear : Nat
deriving DecidableEq

/-- Modelled from the spec: the decoded summary (`base.ExchangeRatesSummary`),
an ordered sequence of rate records. -/
structure ExchangeRatesSummary where
  rates : List Rate
deriving DecidableEq

/-- Date formatting from `src/main.go` line 123:
`fmt.Sprintf("%d/%d/%d", day, month, year)` — the `%d` verb prints the
decimal value with no zero-padding (Go `time.Month` is an integer type, so
`%d` prints its numeric value). -/
def formatDate (day month year : Nat) : String :=
  toString day ++ "/" ++ toString month ++ "/" ++ toString year

/-- Domain-filter loop from `src/main.go` lines 118-126: appends the formatted
effective date of every record whose mid value satisfies
`item.Mid < 4.5 || item.Mid > 4.7`. -/
def rateOutOfScope (rates : List Rate) : List String :=
  rates.foldl
    (fun acc item =>
      if item.mid < 4.5 ∨ 4.7 < item.mid then
        acc ++ [formatDate item.effDay item.effMonth item.effYear]
      else acc)
    []

theorem rateOutOfScope_foldl (rates : List Rate) (acc : List String) :
    rates.foldl
      (fun acc item =>
        if item.mid < 4.5 ∨ 4.7 < item.mid then
          acc ++ [formatDate item.effDay item.effMonth item.effYear]
        else acc)
      acc
    = acc ++ (rates.filter (fun r => decide (r.mid < 4.5 ∨ 4.7 < r.mid))).map
        (fun r => formatDate r.effDay r.effMonth r.effYear) := by
  induction rates generalizing acc with
  | nil => simp
  | cons r rs ih =>
    simp only [List.foldl_cons, List.filter_cons]
    by_cases h : r.mid < 4.5 ∨ 4.7 < r.mid
    · simp [h, ih, List.append_assoc]
    · simp [h, ih]

/-- Claim C2: a rate record is flagged as out-of-scope (its formatted date
appended to the list) iff its mid value is strictly below 4.5 or strictly
above 4.7; in particular mid = 4.5 and mid = 4.7 are not flagged while
4.499 and 4.701 are. -/
theorem rate_filter_iff :
    (∀ rates : List Rate,
      rateOutOfScope rates =
        (rates.filter (fun r => decide (r.mid < 4.5 ∨ 4.7 < r.mid))).map
          (fun r => formatDate r.effDay r.effMonth r.effYear)) ∧
    rateOutOfScope [⟨4.5, 1, 2, 2003⟩] = [] ∧
    rateOutOfScope [⟨4.7, 1, 2, 2003⟩] = [] ∧
    rateOutOfScope [⟨4.499, 1, 2, 2003⟩] = [formatDate 1 2 2003] ∧
    rateOutOfScope [⟨4.701, 1, 2, 2003⟩] = [formatDate 1 2 2003] := by
  refine ⟨fun rates => by simpa using rateOutOfScope_foldl rates [], ?_, ?_, ?_, ?_⟩ <;>
    norm_num [rateOutOfScope]

/-- Claim C7: every out-of-scope record is recorded by its effective date in
`day/month/year` form with decimal numerals and no zero-padding; in
particular an effective date 2024-03-05 yields the string "5/3/2024". -/
theorem out_of_scope_date_format :
    (∀ (rates : List Rate) (r : Rate), r ∈ rates → (r.mid < 4.5 ∨ 4.7 < r.mid) →
      formatDate r.effDay r.effMonth r.effYear ∈ rateOutOfScope rates) ∧
    formatDate 5 3 2024 = "5/3/2024" := by
  constructor
  · intro rates r hmem hflag
    have h := rateOutOfScope_foldl rates []
    rw [rateOutOfScope, h]
    simp only [List.nil_append]
    exact List.mem_map_of_mem _ (List.mem_filter.mpr ⟨hmem, by simpa using hflag⟩)
  · rfl

def sampleRate48 : Rate := ⟨4.8, 5, 3, 2024⟩

theorem out_of_scope_date_format_witness :
    (sampleRate48 ∈ [sampleRate48] ∧ (sampleRate48.mid < 4.5 ∨ 4.7 < sampleRate48.mid)) ∧
    formatDate 5 3 2024 ∈ rateOutOfScope [sampleRate48] :=
  ⟨⟨by simp, by norm_num [sampleRate48]⟩,
    out_of_scope_date_format.1 [sampleRate48] sampleRate48 (by simp)
      (by norm_num [sampleRate48])⟩

/-! ## Fetch Unit (`apiQueryWorker`, `src/main.go` lines 71-132) -/

/-- Raw bytes of a payload. -/
abbrev Bytes := List Nat

/-- Response body as the gzip collaborator (`compress/gzip`, stdlib) sees it:
either reading the transport stream fails, or the bytes are not a gzip stream
(`gzip.NewReader` rejects them: "gzip: invalid header"), or the gzip header is
fine but the stream is corrupt (the second `ReadAll` fails), or the bytes are
a well-formed gzip stream of `content`. -/
inductive Body where
  | readError
  | plain (raw : Bytes)
  | corruptGzip (raw : Bytes)
  | gzipped (content : Bytes)
deriving DecidableEq

/-- Response delivered by `client.Do` (transport collaborator). -/
structure HttpResponse where
  statusCode : Int
  contentType : String
  body : Body
deriving DecidableEq

/-- Collaborator results one worker run observes: the outcome of
`prepareHttpRequest` (request construction), the outcome of `client.Do`
(transport), and the measured round-trip duration `time.Since(startTime)`
in nanoseconds.  (`resp.Body.Close` failure, also fatal in the source, is
not modelled; no claim depends on it.) -/
structure WorkerEnv where
  prepareReq : Except String Unit
  performReq : Except String HttpResponse
  elapsed : Nat

/-- Fields of the diagnostic line `logger.PrintReqInfo(index, elapsed,
statusCode, contentType, isJsonValid, rateOutOfScope)` (line 130). -/
structure ReqInfo where
  index : Nat
  elapsed : Nat
  statusCode : Int
  contentType : String
  isJsonValid : Bool
  rateOutOfScope : List String
deriving DecidableEq

/-- How one worker run ends: `fatal msg` models `log.Fatalf` (which calls
`os.Exit(1)`, terminating the whole process), `report info` models the normal
path that emits one diagnostic line. -/
inductive WorkerResult where
  | fatal (msg : String)
  | report (info : ReqInfo)
deriving DecidableEq

/-- Exit record of one worker run.  `wgReleased` records whether the deferred
`wg.Done()` (line 72) actually executed: Go runs deferred calls on return,
but `os.Exit` — which `log.Fatalf` performs — terminates the process without
running them. -/
structure WorkerExit where
  result : WorkerResult
  wgReleased : Bool
deriving DecidableEq

/-- Embedding of `decompressGzippedResponse` (`src/main.go` lines 154-172):
read all body bytes, construct a gzip reader over them, read the decompressed
stream.  Each failure is wrapped in the function's own error message. -/
def decompressGzippedResponse : Body → Except String Bytes
  | .readError => .error "failed to read compressed body content"
  | .plain _ => .error "failed to create gzip reader: gzip: invalid header"
  | .corruptGzip _ => .error "failed to read compressed body content"
  | .gzipped content => .ok content

/-- Embedding of `apiQueryWorker` (`src/main.go` lines 71-132) over the
collaborator results in `env` and the JSON collaborator functions
(`encoding/json`'s `json.Valid` and `json.Unmarshal`, passed as parameters).
Each `log.Fatalf` path exits the process, so the deferred `wg.Done` does not
run there (`wgReleased = false`); the normal path computes the domain filter
and emits one report, then the defer releases the countdown. -/
def apiQueryWorker (index : Nat) (env : WorkerEnv)
    (jsonValid : Bytes → Bool)
    (jsonUnmarshal : Bytes → Option ExchangeRatesSummary) : WorkerExit :=
  match env.prepareReq with
  | .error e => ⟨.fatal ("Failed to prepare GET request: " ++ e), false⟩
  | .ok _ =>
    match env.performReq with
    | .error e => ⟨.fatal ("Failed to perform GET request: " ++ e), false⟩
    | .ok resp =>
      match decompressGzippedResponse resp.body with
      | .error e => ⟨.fatal ("Failed to read compressed body content: " ++ e), false⟩
      | .ok content =>
        let isJsonValid := jsonValid content
        match jsonUnmarshal content with
        | none => ⟨.fatal "Failed to unmarshall request content", false⟩
        | some summary =>
          ⟨.report ⟨index, env.elapsed, resp.statusCode, resp.contentType,
              isJsonValid, rateOutOfScope summary.rates⟩, true⟩

/-- A `json.Valid` stand-in that accepts everything. -/
def jvAll : Bytes → Bool := fun _ => true

/-- A `json.Unmarshal` stand-in that decodes everything to an empty summary. -/
def juNil : Bytes → Option ExchangeRatesSummary := fun _ => some ⟨[]⟩

/-- A run whose transport call fails (`client.Do` returns an error). -/
def envTransportFail : WorkerEnv := ⟨.ok (), .error "connection refused", 0⟩

/-- A successful run: request built, transport delivered a gzip body. -/
def sampleEnvOk : WorkerEnv :=
  ⟨.ok (), .ok ⟨200, "application/json; charset=utf-8", .gzipped [123, 125]⟩, 42⟩

/-- Claim C1 (code bug): on any unit-local error the worker calls
`log.Fatalf`, i.e. `os.Exit(1)`, and the deferred `wg.Done()` never runs —
the completion countdown is NOT released on error paths, only on success.
Evaluated here at a failing transport and at a successful run.  The dead
`return` statements after each `log.Fatalf` and the `defer wg.Done()` at the
top of the function show the author expected control to return and the
countdown to be released on every path, as the claim states. -/
theorem worker_error_skips_countdown_release :
    (apiQueryWorker 0 envTransportFail jvAll juNil).wgReleased = false ∧
    (apiQueryWorker 0 sampleEnvOk jvAll juNil).wgReleased = true :=
  ⟨rfl, rfl⟩

/-- A run whose response body is NOT compressed (plain bytes, here the JSON
text "[]"): `gzip.NewReader` rejects it. -/
def envPlainBody : WorkerEnv :=
  ⟨.ok (), .ok ⟨200, "application/json; charset=utf-8", .plain [91, 93]⟩, 7⟩

/-- Claim C9 counterexample: on an uncompressed response body the unit does
NOT "still produce its structured outcome" — `decompressGzippedResponse` is
applied unconditionally (line 102), `gzip.NewReader` fails on the non-gzip
bytes, and the unit aborts fatally with no report. -/
theorem uncompressed_body_fatal_cex :
    (apiQueryWorker 0 envPlainBody jvAll juNil).result =
      .fatal ("Failed to read compressed body content: " ++
        "failed to create gzip reader: gzip: invalid header") ∧
    (apiQueryWorker 0 envPlainBody jvAll juNil).wgReleased = false :=
  ⟨rfl, rfl⟩

/-- Claim C9 (amended): the worker applies the decompression step to every
response body unconditionally, whether or not the transport indicated a
compressed payload; a non-gzip body makes the decompression step fail and the
unit aborts fatally without a structured outcome, while a well-formed gzip
body is decompressed and the unit proceeds to its report. -/
theorem decompress_applied_unconditionally (i : Nat) (st : Int) (ct : String)
    (el : Nat) (raw content : Bytes) (jv : Bytes → Bool)
    (ju : Bytes → Option ExchangeRatesSummary) :
    (apiQueryWorker i ⟨.ok (), .ok ⟨st, ct, .plain raw⟩, el⟩ jv ju).result =
      .fatal ("Failed to read compressed body content: " ++
        "failed to create gzip reader: gzip: invalid header") ∧
    decompressGzippedResponse (.gzipped content) = .ok content ∧
    (apiQueryWorker i ⟨.ok (), .ok ⟨st, ct, .gzipped content⟩, el⟩ jvAll juNil).result =
      .report ⟨i, el, st, ct, true, []⟩ :=
  ⟨rfl, rfl, rfl⟩

/-- Claim C10: under the `encoding/json` contract that `json.Unmarshal`
succeeds only on input that `json.Valid` accepts (Unmarshal syntax-checks the
whole input first), every report the worker actually emits carries
`isJsonValid = true`: invalid content makes the decode step fail fatally at
line 112 before the report call at line 130 is reached. -/
theorem emitted_report_isValid (i : Nat) (env : WorkerEnv) (jv : Bytes → Bool)
    (ju : Bytes → Option ExchangeRatesSummary) (r : ReqInfo)
    (hvu : ∀ b, (ju b).isSome = true → jv b = true)
    (hrep : (apiQueryWorker i env jv ju).result = .report r) :
    r.isJsonValid = true := by
  obtain ⟨pr, pf, el⟩ := env
  cases pr with
  | error e => simp [apiQueryWorker] at hrep
  | ok u =>
    cases pf with
    | error e => simp [apiQueryWorker] at hrep
    | ok resp =>
      obtain ⟨st, ct, body⟩ := resp
      cases body with
      | readError => simp [apiQueryWorker, decompressGzippedResponse] at hrep
      | plain raw => simp [apiQueryWorker, decompressGzippedResponse] at hrep
      | corruptGzip raw => simp [apiQueryWorker, decompressGzippedResponse] at hrep
      | gzipped content =>
        cases hju : ju content with
        | none => simp [apiQueryWorker, decompressGzippedResponse, hju] at hrep
        | some summary =>
          simp [apiQueryWorker, decompressGzippedResponse, hju] at hrep
          have hv : jv content = true := hvu content (by simp [hju])
          rw [← hrep]
          exact hv

/-- Report produced by the sample successful run. -/
def sampleReport : ReqInfo := ⟨0, 42, 200, "application/json; charset=utf-8", true, []⟩

theorem emitted_report_isValid_witness :
    (∀ b, ((juNil b).isSome = true → jvAll b = true)) ∧
    (apiQueryWorker 0 sampleEnvOk jvAll juNil).result = .report sampleReport ∧
    sampleReport.isJsonValid = true :=
  ⟨fun _ _ => rfl, rfl,
    emitted_report_isValid 0 sampleEnvOk jvAll juNil sampleReport (fun _ _ => rfl) rfl⟩

/-! ## Cycle boundary timing (`src/main.go` lines 55-62) -/

/-- Nanoseconds in `time.Second`. -/
def second : Nat := 1000000000

/-- Cadence duration `FetchInterval * time.Second` in nanoseconds. -/
def cadence : Int := FetchInterval * second

/-- Behaviour of Go `time.Sleep d`: a negative or zero duration returns
immediately, so the time actually spent is `max d 0`. -/
def goSleep (d : Int) : Int := max d 0

/-- Residual sleep of the completion branch (line 59):
`time.Sleep(FetchInterval*time.Second - elapsed)`. -/
def residualSleep (elapsed : Int) : Int := goSleep (cadence - elapsed)

/-- Instant at which the next cycle starts when the completion signal fired
`elapsed` ns after the recorded start: the coordinator resumes at
`start + elapsed` and then performs the residual sleep. -/
def nextCycleStart (start elapsed : Int) : Int :=
  start + elapsed + residualSleep elapsed

/-- Claim C3: in the completion branch the coordinator sleeps for the cadence
minus the elapsed time since the recorded start, a negative remainder meaning
no sleep at all, so the next cycle starts no earlier than the cadence after
the previous cycle's recorded start. -/
theorem next_cycle_respects_cadence :
    (∀ elapsed : Int,
      residualSleep elapsed =
        if cadence - elapsed < 0 then 0 else cadence - elapsed) ∧
    (∀ start elapsed : Int, start + cadence ≤ nextCycleStart start elapsed) := by
  constructor
  · intro e
    rcases lt_or_le (cadence - e) 0 with h | h
    · simp [residualSleep, goSleep, h, max_eq_right (le_of_lt h)]
    · simp [residualSleep, goSleep, max_eq_left h, not_lt.mpr h]
  · intro start e
    have h : cadence - e ≤ residualSleep e := le_max_left _ _
    simp only [nextCycleStart]
    omega

/-! ## Cycle Coordinator program (`main`, `src/main.go` lines 32-67)

The coordinator's actions within one loop iteration, in program order, as an
explicit action list.  The `select` outcome is abstracted by `CycleBranch`:
`completion` when `waitCh` fired first (followed by the residual sleep),
`timeout` when `time.After` fired first (followed by the timeout notice). -/

/-- The four logging-collaborator operations named by the spec. -/
inductive LogOp where
  | beginMarker
  | endMarker
  | timeoutNotice
  | unitReport (info : ReqInfo)
deriving DecidableEq

/-- One observable action of a thread. -/
inductive ThreadAction where
  | lock
  | unlock
  | output (op : LogOp)
  | spawnWorker (i : Nat)
  | sleep
  | fatalExit (msg : String)
  | wgDone
deriving DecidableEq

/-- Which of the two `select` arms won the race. -/
inductive CycleBranch where
  | completion
  | timeout
deriving DecidableEq

/-- Coordinator actions before the `select`: guarded begin marker
(lines 38-40), then the launch of the `FetchesAmount` workers (lines 43-45). -/
def cyclePre : List ThreadAction :=
  [.lock, .output .beginMarker, .unlock] ++
    (List.range FetchesAmount).map ThreadAction.spawnWorker

/-- Coordinator actions after the `select`: guarded end marker (lines 64-66). -/
def cyclePost : List ThreadAction := [.lock, .output .endMarker, .unlock]

/-- Coordinator actions of one loop iteration.  In the completion branch the
residual sleep follows the launches (lines 56-59); in the timeout branch the
timeout notice is printed (line 61) — note, with no `mu.Lock` around it —
and control falls through to the end marker with no further wait. -/
def coordinatorCycle : CycleBranch → List ThreadAction
  | .completion => cyclePre ++ [.sleep] ++ cyclePost
  | .timeout => cyclePre ++ [.output .timeoutNotice] ++ cyclePost

/-- Recognizer for the sleep action. -/
def isSleepAction : ThreadAction → Bool
  | .sleep => true
  | _ => false

/-- Claim C4: when the cadence timer wins the race the coordinator emits the
timeout notice and proceeds straight to the end marker and the next cycle:
no sleep and no further wait on outstanding units occurs in that branch
(the completion branch, by contrast, contains the one sleep). -/
theorem timeout_branch_proceeds_immediately :
    (coordinatorCycle .timeout).get? 13 = some (.output .timeoutNotice) ∧
    (coordinatorCycle .timeout).drop 14 = [.lock, .output .endMarker, .unlock] ∧
    (coordinatorCycle .timeout).countP isSleepAction = 0 ∧
    (coordinatorCycle .completion).countP isSleepAction = 1 :=
  ⟨rfl, rfl, rfl, rfl⟩

/-! ## Serialization Lock discipline (claim C6) -/

/-- Recognizer for the mutex-acquire action. -/
def isLockAction : ThreadAction → Bool
  | .lock => true
  | _ => false

/-- Recognizer for the mutex-release action. -/
def isUnlockAction : ThreadAction → Bool
  | .unlock => true
  | _ => false

/-- Recognizer for the timeout notice among logging operations. -/
def isTimeoutNotice : LogOp → Bool
  | .timeoutNotice => true
  | _ => false

/-- A thread holds the (non-reentrant) mutex at position `j` of its own action
sequence iff it has performed strictly more acquires than releases before `j`;
since `sync.Mutex` blocks on acquire, this per-thread count is exactly
lock ownership. -/
def holdsLockAt (prog : List ThreadAction) (j : Nat) : Bool :=
  decide ((prog.take j).countP isUnlockAction < (prog.take j).countP isLockAction)

/-- Checks that every logging-collaborator call in `prog` happens while the
caller holds the lock, except — when `allowUnlockedTimeout` is set — the
timeout notice. -/
def outputsLockDisciplined (allowUnlockedTimeout : Bool)
    (prog : List ThreadAction) : Bool :=
  (List.range prog.length).all fun j =>
    match prog.get? j with
    | some (.output op) => (allowUnlockedTimeout && isTimeoutNotice op) || holdsLockAt prog j
    | _ => true

/-- Observable actions of one worker run, in program order: the fatal paths
exit the process; the normal path takes the lock, prints its report, releases
the lock (lines 129-131), then the deferred `wg.Done` runs. -/
def actionsOfResult : WorkerResult → List ThreadAction
  | .fatal msg => [.fatalExit msg]
  | .report r => [.lock, .output (.unitReport r), .unlock, .wgDone]

/-- Action sequence of worker `i` under environment `env`. -/
def workerActions (i : Nat) (env : WorkerEnv) (jv : Bytes → Bool)
    (ju : Bytes → Option ExchangeRatesSummary) : List ThreadAction :=
  actionsOfResult (apiQueryWorker i env jv ju).result

/-- Claim C6 counterexample: the timeout notice (`log.Println` at line 61,
position 13 of the timeout-branch coordinator sequence) is a logging
collaborator call made WITHOUT holding the Serialization Lock, contradicting
the claim that every such call holds it. -/
theorem timeout_notice_unlocked_cex :
    (coordinatorCycle .timeout).get? 13 = some (.output .timeoutNotice) ∧
    holdsLockAt (coordinatorCycle .timeout) 13 = false :=
  ⟨rfl, rfl⟩

/-- Claim C6 (amended): every begin-marker, end-marker and unit-report call —
in both coordinator branches and in every worker run — is made while the
caller holds the Serialization Lock, so unit diagnostic lines are never
interleaved; the timeout notice alone is emitted without holding the lock. -/
theorem logging_lock_discipline :
    (∀ br : CycleBranch, outputsLockDisciplined true (coordinatorCycle br) = true) ∧
    (∀ (i : Nat) (env : WorkerEnv) (jv : Bytes → Bool)
        (ju : Bytes → Option ExchangeRatesSummary),
      outputsLockDisciplined false (workerActions i env jv ju) = true) ∧
    holdsLockAt (coordinatorCycle .timeout) 13 = false := by
  refine ⟨fun br => ?_, fun i env jv ju => ?_, rfl⟩
  · cases br <;> rfl
  · unfold workerActions
    cases h : (apiQueryWorker i env jv ju).result with
    | fatal msg => rfl
    | report r => rfl

/-! ## Cross-thread ordering (claim C8)

A schedule assigns each thread-program position a global instant.  Per-thread
program order is preserved (`StrictMono`), and a goroutine's first action
happens after the `go` statement that spawned it (`spawnCausal`) — exactly
the ordering guarantees of the Go runtime.  The worker `i` launch is
position `3 + i` of the coordinator sequence, after the guarded begin marker
at positions 0-2. -/

structure CycleSchedule where
  branch : CycleBranch
  envs : Nat → WorkerEnv
  jsonValid : Bytes → Bool
  jsonUnmarshal : Bytes → Option ExchangeRatesSummary
  coordTime : Nat → Nat
  workerTime : Nat → Nat → Nat
  coordMono : StrictMono coordTime
  workerMono : ∀ i, StrictMono (workerTime i)
  spawnCausal : ∀ i, i < FetchesAmount → coordTime (3 + i) < workerTime i 0

theorem coordinatorCycle_spawn_get (br : CycleBranch) (i : Nat)
    (hi : i < FetchesAmount) :
    (coordinatorCycle br).get? (3 + i) = some (.spawnWorker i) := by
  have hi10 : i < 10 := by simpa [FetchesAmount] using hi
  have hpre : cyclePre[3 + i]? = some (ThreadAction.spawnWorker i) := by
    rw [cyclePre, List.getElem?_append_right (by simp)]
    simp [List.getElem?_range, FetchesAmount, hi10]
  have hlen : 3 + i < cyclePre.length := by
    simp only [cyclePre, List.length_append, List.length_map, List.length_range,
      FetchesAmount, List.length_cons, List.length_nil]
    omega
  rw [List.get?_eq_getElem?]
  cases br <;> rw [coordinatorCycle] <;>
    rw [List.getElem?_append_left (by simp only [List.length_append]; omega),
      List.getElem?_append_left hlen] <;> exact hpre

/-- Claim C8: within a cycle the begin marker (coordinator position 1) is
printed before any unit's diagnostic line: worker `i` is spawned at
coordinator position `3 + i`, strictly after the begin marker, and every
action of worker `i` — in particular its report — happens after the spawn. -/
theorem unit_report_after_begin_marker (S : CycleSchedule) (i p : Nat) (r : ReqInfo)
    (hi : i < FetchesAmount)
    (_hrep : (workerActions i (S.envs i) S.jsonValid S.jsonUnmarshal).get? p =
      some (.output (.unitReport r))) :
    (coordinatorCycle S.branch).get? 1 = some (.output .beginMarker) ∧
    (coordinatorCycle S.branch).get? (3 + i) = some (.spawnWorker i) ∧
    S.coordTime 1 < S.coordTime (3 + i) ∧
    S.coordTime 1 < S.workerTime i p := by
  refine ⟨?_, coordinatorCycle_spawn_get S.branch i hi, ?_, ?_⟩
  · cases hb : S.branch <;> rfl
  · exact S.coordMono (by omega)
  · calc S.coordTime 1 < S.coordTime (3 + i) := S.coordMono (by omega)
      _ < S.workerTime i 0 := S.spawnCausal i hi
      _ ≤ S.workerTime i p := (S.workerMono i).monotone (Nat.zero_le p)

/-- A concrete schedule: all workers succeed, the coordinator runs at instants
0,1,2,…, worker `i` runs at instants 100+20i, 100+20i+1, …. -/
def sampleSchedule : CycleSchedule where
  branch := .completion
  envs := fun _ => sampleEnvOk
  jsonValid := jvAll
  jsonUnmarshal := juNil
  coordTime := fun p => p
  workerTime := fun i p => 100 + 20 * i + p
  coordMono := fun _ _ h => h
  workerMono := fun i _ _ h => by dsimp only; omega
  spawnCausal := fun i _ => by dsimp only; omega

theorem unit_report_after_begin_marker_witness :
    0 < FetchesAmount ∧
    (workerActions 0 (sampleSchedule.envs 0) sampleSchedule.jsonValid
        sampleSchedule.jsonUnmarshal).get? 1 =
      some (.output (.unitReport ⟨0, 42, 200, "application/json; charset=utf-8", true, []⟩)) ∧
    sampleSchedule.coordTime 1 < sampleSchedule.workerTime 0 1 :=
  ⟨by decide, rfl,
    (unit_report_after_begin_marker sampleSchedule 0 1
      ⟨0, 42, 200, "application/json; charset=utf-8", true, []⟩ (by decide) rfl).2.2.2⟩

/-! ## Cycle Driver loop (`main`, `src/main.go` lines 32-53) -/

/-- Setup and monitor events of one driver-loop iteration.  Channel identity
is the cycle number: `make(chan int)` at line 33 yields a fresh channel each
iteration. -/
inductive DriverEvent where
  | makeChan (chanId : Nat)
  | wgAdd (n : Nat)
  | spawnUnit (cycle : Nat) (i : Nat)
  | spawnMonitor (cycle : Nat)
  | closeChan (chanId : Nat)
deriving DecidableEq

/-- The monitor goroutine (lines 47-53) blocks in `wg.Wait()` until the
countdown reaches zero and only then closes the cycle's channel: it emits
the close exactly when the remaining countdown is `0`. -/
def monitorStep (countdownLeft : Nat) (chanId : Nat) : List DriverEvent :=
  if countdownLeft = 0 then [.closeChan chanId] else []

/-- Events of driver-loop iteration `k`: a fresh `IntervalHandler` with a
fresh channel (line 33), `wg.Add(FetchesAmount)` (line 35), the launch of the
`FetchesAmount` workers (lines 43-45), the monitor launch (line 47), and —
once all `FetchesAmount` countdown releases happened — the monitor's close of
this cycle's channel. -/
def cycleEvents (k : Nat) : List DriverEvent :=
  [.makeChan k, .wgAdd FetchesAmount] ++
    (List.range FetchesAmount).map (DriverEvent.spawnUnit k) ++
    [.spawnMonitor k] ++
    monitorStep (FetchesAmount - FetchesAmount) k

/-- Events of the first `n` driver-loop iterations. -/
def allEvents (n : Nat) : List DriverEvent :=
  (List.range n).flatMap cycleEvents

/-- Recognizer for worker-launch events. -/
def isSpawnUnit : DriverEvent → Bool
  | .spawnUnit _ _ => true
  | _ => false

theorem closeChan_count_cycle (k m : Nat) :
    (cycleEvents m).count (DriverEvent.closeChan k) = if k = m then 1 else 0 := by
  have hmon : monitorStep (FetchesAmount - FetchesAmount) m = [DriverEvent.closeChan m] := by
    simp [monitorStep, Nat.sub_self]
  have hmap : ((List.range FetchesAmount).map (DriverEvent.spawnUnit m)).count
      (DriverEvent.closeChan k) = 0 := by
    rw [List.count_eq_zero]
    intro h
    obtain ⟨x, _, hx⟩ := List.mem_map.mp h
    exact DriverEvent.noConfusion hx
  rw [cycleEvents, hmon, List.count_append, List.count_append, List.count_append, hmap]
  by_cases h : k = m <;> simp [h, List.count_singleton, List.count_cons]

theorem closeChan_count_all (n k : Nat) :
    (allEvents n).count (DriverEvent.closeChan k) = if k < n then 1 else 0 := by
  induction n with
  | zero => simp [allEvents]
  | succ n ih =>
    have hsplit : allEvents (n + 1) = allEvents n ++ cycleEvents n := by
      simp [allEvents, List.range_succ]
    rw [hsplit, List.count_append, ih, closeChan_count_cycle]
    split_ifs <;> omega

/-- Claim C5: every driver-loop iteration launches exactly ten Fetch Units,
adds ten to a freshly zeroed countdown, creates a fresh completion channel
(identified by the cycle number), and that channel is closed exactly once in
the whole run — by its own cycle's monitor, exactly when the countdown
reaches zero — and never touched by a later cycle; the cadence constant is 5
(seconds) and the batch-size constant is 10. -/
theorem cycle_setup_invariants :
    (∀ k, (cycleEvents k).countP isSpawnUnit = FetchesAmount) ∧
    FetchInterval = 5 ∧ FetchesAmount = 10 ∧ cadence = 5 * second ∧
    (∀ k, (cycleEvents k).get? 0 = some (.makeChan k) ∧
      (cycleEvents k).get? 1 = some (.wgAdd FetchesAmount)) ∧
    (∀ n k, (allEvents n).count (DriverEvent.closeChan k) = if k < n then 1 else 0) ∧
    (∀ left chanId, monitorStep (left + 1) chanId = [] ∧
      monitorStep 0 chanId = [.closeChan chanId]) := by
  refine ⟨fun k => ?_, rfl, rfl, rfl, fun k => ⟨rfl, rfl⟩, closeChan_count_all,
    fun left chanId => ⟨by simp [monitorStep], rfl⟩⟩
  have hmap : ((List.range FetchesAmount).map (DriverEvent.spawnUnit k)).countP
      isSpawnUnit = FetchesAmount := by
    rw [List.countP_map]
    have hall : ∀ a ∈ List.range FetchesAmount,
        (isSpawnUnit ∘ DriverEvent.spawnUnit k) a = true := fun a _ => rfl
    rw [List.countP_eq_length.mpr hall, List.length_range]
  rw [cycleEvents, List.countP_append, List.countP_append, List.countP_append, hmap]
  rfl
